import Mathlib

/-!
Verification development for the sentiment-dashboard normalization and
aggregation pipeline of `streamlit_app.py`.

The Python code operates on JSON-shaped dynamic values (the payload returned
by an external workflow).  We embed those values as the inductive type
`PyVal`: `null`, booleans, integers, integer-valued floats (`fnum`, the only
floats the pipeline manipulates are integer-valued, e.g. the `0.0` default),
strings, lists and insertion-ordered string-keyed dictionaries.  Values
produced by `json.loads` are trees (no sharing between distinct nodes), so a
tree-shaped model is faithful; the one place the code itself creates sharing
(`parse_workflow_response` promoting the first list element to both summary
and sole record) is modelled explicitly.  Fallible operations (Python
`TypeError` paths, e.g. `len` of a non-sized value or iteration of a
non-iterable) are modelled with `Except Unit`.  Text handling models the
ASCII fragment of Python semantics (`str.lower`, `str.title`, the regex
classes `\w` and `[a-z]`), which covers the vocabulary the program works
with.
-/

/-- Model of a Python/JSON dynamic value as handled by the app. -/
inductive PyVal where
  | null
  | bool (b : Bool)
  | num (n : Int)
  | fnum (n : Int)
  | str (s : String)
  | arr (xs : List PyVal)
  | obj (kvs : List (String × PyVal))
deriving Inhabited

/-- Dictionary lookup: value stored at the first matching key (`d[k]` /
`d.get(k)` without default). -/
def lookupKV (kvs : List (String × PyVal)) (k : String) : Option PyVal :=
  (kvs.find? (fun kv => kv.1 == k)).map (fun kv => kv.2)

/-- Python `k in d`: key membership test. -/
def hasKeyKV (kvs : List (String × PyVal)) (k : String) : Bool :=
  (lookupKV kvs k).isSome

/-- Python `d.get(k, default)`. -/
def getDKV (kvs : List (String × PyVal)) (k : String) (d : PyVal) : PyVal :=
  (lookupKV kvs k).getD d

/-- Replace the value stored at key `k` (in-place dictionary update). -/
def updateKV (kvs : List (String × PyVal)) (k : String) (v : PyVal) :
    List (String × PyVal) :=
  kvs.map (fun kv => if kv.1 == k then (kv.1, v) else kv)

/-- Python truthiness of a value (`bool(v)`). -/
def pyTruthy : PyVal → Bool
  | .null => false
  | .bool b => b
  | .num n => n != 0
  | .fnum n => n != 0
  | .str s => s != ""
  | .arr xs => !xs.isEmpty
  | .obj kvs => !kvs.isEmpty

/-- Python `len(v)`: defined for lists, dicts and strings, a `TypeError`
(`none`) otherwise (in particular for `None`, numbers and booleans). -/
def pyLen : PyVal → Option Nat
  | .arr xs => some xs.length
  | .obj kvs => some kvs.length
  | .str s => some s.data.length
  | _ => none

/-- ASCII single quote character, used by `pyRepr` for string quoting. -/
def sqChar : String := String.singleton (Char.ofNat 39)

/-- Python `repr(v)` (ASCII model; strings are quoted without escape
processing, which the pipeline never depends on). -/
def pyRepr : PyVal → String
  | .null => "None"
  | .bool b => if b then "True" else "False"
  | .num n => toString n
  | .fnum n => toString n ++ ".0"
  | .str s => sqChar ++ s ++ sqChar
  | .arr xs =>
      "[" ++ String.intercalate ", " (xs.attach.map (fun x => pyRepr x.1)) ++ "]"
  | .obj kvs =>
      "\x7b" ++
        String.intercalate ", "
          (kvs.attach.map (fun kv => sqChar ++ kv.1.1 ++ sqChar ++ ": " ++ pyRepr kv.1.2)) ++
        "\x7d"
decreasing_by
  · have := List.sizeOf_lt_of_mem x.2; simp at this ⊢; omega
  · obtain ⟨⟨k, v⟩, hm⟩ := kv
    have := List.sizeOf_lt_of_mem hm; simp at this ⊢; omega

/-- Python `str(v)`: the string itself for strings, `repr` otherwise. -/
def pyStrTop : PyVal → String
  | .str s => s
  | v => pyRepr v

/-- Python `s.lower()` (ASCII model), mapping over the character list. -/
def pyToLower (s : String) : String := String.mk (s.data.map Char.toLower)

/-- Python `s.strip()`: remove leading and trailing whitespace. -/
def pyStrip (s : String) : String :=
  String.mk (((s.data.dropWhile Char.isWhitespace).reverse.dropWhile
    Char.isWhitespace).reverse)

/-- Helper for `pyReplace`: replace every occurrence of the (non-empty)
pattern in the character list; each step consumes at least one input
character, so a fuel equal to the input length suffices and the fuel-out
case is never hit with a non-empty list. -/
def replaceAux (pat rep : List Char) : Nat → List Char → List Char
  | 0, l => l
  | _ + 1, [] => []
  | fuel + 1, c :: rest =>
      if pat.isPrefixOf (c :: rest) && !pat.isEmpty then
        rep ++ replaceAux pat rep fuel (rest.drop (pat.length - 1))
      else c :: replaceAux pat rep fuel rest

/-- Python `s.replace(pat, rep)` for a non-empty pattern. -/
def pyReplace (s pat rep : String) : String :=
  String.mk (replaceAux pat.data rep.data s.data.length s.data)

/-- Join string parts with a separator (Python `sep.join(parts)`). -/
def joinWith (sep : String) (parts : List String) : String :=
  String.mk (List.intercalate sep.data (parts.map String.data))

/-- Python iteration `for x in v`: list elements, string characters, dict
keys; `TypeError` (`error`) for other values. -/
def pyIterE : PyVal → Except Unit (List PyVal)
  | .arr xs => .ok xs
  | .str s => .ok (s.toList.map (fun c => .str (String.singleton c)))
  | .obj kvs => .ok (kvs.map (fun kv => .str kv.1))
  | _ => .error ()

/-- Python `a + b` on dynamic values: numeric addition (bools count as ints,
mixing in a float yields a float), string and list concatenation; any other
combination is a `TypeError`. -/
def pyAdd : PyVal → PyVal → Except Unit PyVal
  | .num a, .num b => .ok (.num (a + b))
  | .num a, .fnum b => .ok (.fnum (a + b))
  | .fnum a, .num b => .ok (.fnum (a + b))
  | .fnum a, .fnum b => .ok (.fnum (a + b))
  | .bool a, .num b => .ok (.num ((if a then 1 else 0) + b))
  | .num a, .bool b => .ok (.num (a + (if b then 1 else 0)))
  | .bool a, .bool b => .ok (.num ((if a then 1 else 0) + (if b then 1 else 0)))
  | .bool a, .fnum b => .ok (.fnum ((if a then 1 else 0) + b))
  | .fnum a, .bool b => .ok (.fnum (a + (if b then 1 else 0)))
  | .str a, .str b => .ok (.str (a ++ b))
  | .arr a, .arr b => .ok (.arr (a ++ b))
  | _, _ => .error ()

/-- Python `v == 0` for the values numeric comparison treats as zero
(`0`, `0.0` and `False` all compare equal to `0`). -/
def pyEqZeroNum : PyVal → Bool
  | .num n => n == 0
  | .fnum n => n == 0
  | .bool b => !b
  | _ => false

/-- Helper for `containsSub`: does the pattern occur starting at any
position of the list. -/
def containsSubAux (pat : List Char) : List Char → Bool
  | [] => pat.isEmpty
  | c :: rest => pat.isPrefixOf (c :: rest) || containsSubAux pat rest

/-- Substring containment, Python `sub in s`. -/
def containsSub (sub s : String) : Bool := containsSubAux sub.data s.data

/-- Helper for `pyTitle`: walks the characters tracking whether the previous
character was alphabetic. -/
def pyTitleAux : List Char → Bool → List Char
  | [], _ => []
  | c :: cs, prevAlpha =>
      if c.isAlpha then
        (if prevAlpha then c.toLower else c.toUpper) :: pyTitleAux cs true
      else
        c :: pyTitleAux cs false

/-- Python `s.title()` (ASCII model): uppercase the first letter of each
alphabetic run, lowercase the rest. -/
def pyTitle (s : String) : String := String.mk (pyTitleAux s.toList false)

/-- Insert one occurrence of key `k` into an insertion-ordered count table
(the dict-update step `counts[k] = counts.get(k, 0) + 1`, and equally the
update performed by `collections.Counter`): bump the entry holding `k`, or
append `(k, 1)` when no entry holds it. -/
def bumpCount : List (String × Nat) → String → List (String × Nat)
  | [], k => [(k, 1)]
  | p :: rest, k =>
      if p.1 == k then (p.1, p.2 + 1) :: rest else p :: bumpCount rest k

/-- Count the occurrences of each string, keys in first-seen order
(`collections.Counter(ws)` over an insertion-ordered dict). -/
def tallyList (ws : List String) : List (String × Nat) :=
  ws.foldl bumpCount []

/-- Stable sort by descending count: the order produced by Python
`sorted(items, key=lambda x: -x[1])` and by `Counter.most_common`
(ties keep first-seen order). -/
def sortDescCount (l : List (String × Nat)) : List (String × Nat) :=
  l.insertionSort (fun p q => q.2 ≤ p.2)

/-- Python `Counter(ws).most_common(n)` given the tallied table. -/
def mostCommon (tl : List (String × Nat)) (n : Nat) : List (String × Nat) :=
  (sortDescCount tl).take n

/-- Fill the eleven summary defaults (`sentiment.setdefault(...)` block of
`parse_workflow_response`, lines 116-126): each absent key is appended, in
source order, with its default; `totalItems` defaults to `len(responses)`
(the length of the raw responses value at that point), the counts and
percents to `0`, `avgScore` to the float `0.0`, the three breakdown mappings
to empty dicts. -/
def pySetdefaults (kvs : List (String × PyVal)) (nResp : Nat) :
    List (String × PyVal) :=
  let sd := fun (acc : List (String × PyVal)) (k : String) (v : PyVal) =>
    if hasKeyKV acc k then acc else acc ++ [(k, v)]
  let a0 := sd kvs "totalItems" (.num nResp)
  let a1 := sd a0 "positiveCount" (.num 0)
  let a2 := sd a1 "neutralCount" (.num 0)
  let a3 := sd a2 "negativeCount" (.num 0)
  let a4 := sd a3 "positivePercent" (.num 0)
  let a5 := sd a4 "neutralPercent" (.num 0)
  let a6 := sd a5 "negativePercent" (.num 0)
  let a7 := sd a6 "avgScore" (.fnum 0)
  let a8 := sd a7 "topThemes" (.obj [])
  let a9 := sd a8 "topConcerns" (.obj [])
  sd a9 "sourceBreakdown" (.obj [])

/-- First phase of `parse_workflow_response` (lines 105-114): extract the raw
`sentiment` value and the raw `responses` value from the payload.  The third
component is `some fm` exactly when the code builds the one-element list
`[first]` out of the first sequence element `first` (so the returned records
alias objects the second phase may mutate); it carries the entries of
`first`. -/
def extractRaw (data : PyVal) : PyVal × PyVal × Option (List (String × PyVal)) :=
  match data with
  | .obj m =>
      ((lookupKV m "sentiment").getD (.obj []),
       (lookupKV m "responses").getD (.arr []), none)
  | .arr (.obj fm :: _) =>
      let sRaw := (lookupKV fm "sentiment").getD (.obj fm)
      match lookupKV fm "responses" with
      | some rv => (sRaw, rv, none)
      | none =>
          if hasKeyKV fm "headline" || hasKeyKV fm "personalized_response" then
            (sRaw, .arr [.obj fm], some fm)
          else
            (sRaw, .arr [], none)
  | _ => (.obj [], .arr [], none)

/-- Final wrapping of the responses value (lines 127-128): a list is kept, a
single dict is wrapped into a one-element list, anything else becomes
empty. -/
def pyWrapResponses : PyVal → List PyVal
  | .arr xs => xs
  | .obj kvs => [.obj kvs]
  | _ => []

/-- Second phase of `parse_workflow_response` (lines 115-129): default-fill
the sentiment value when it is a dict (raising `TypeError` when
`len(responses)` is undefined), wrap the responses value, and reproduce the
in-place-mutation aliasing of the `[first]` case: there the returned records
are the same (now default-filled) object as the summary, or the object whose
nested `sentiment` entry was default-filled. -/
def parseFinish (sRaw rRaw : PyVal) (sharedFm : Option (List (String × PyVal))) :
    Except Unit (PyVal × List PyVal) :=
  match sRaw with
  | .obj skvs =>
      match pyLen rRaw with
      | none => .error ()
      | some n =>
          let sDef := PyVal.obj (pySetdefaults skvs n)
          match sharedFm with
          | some fm =>
              if hasKeyKV fm "sentiment" then
                .ok (sDef, [.obj (updateKV fm "sentiment" sDef)])
              else
                .ok (sDef, [sDef])
          | none => .ok (sDef, pyWrapResponses rRaw)
  | _ => .ok (sRaw, pyWrapResponses rRaw)

/-- The normalizer `parse_workflow_response` (lines 104-129), as the pure
function from the input payload to the returned `(sentiment, responses)`
pair; `error` models an uncaught `TypeError`. -/
def parse_workflow_response (data : PyVal) : Except Unit (PyVal × List PyVal) :=
  match extractRaw data with
  | (sRaw, rRaw, sharedFm) => parseFinish sRaw rRaw sharedFm

/-- Raw sentiment value the normalizer extracts from a payload. -/
def sentRawOf (data : PyVal) : PyVal := (extractRaw data).1

/-- Raw responses value the normalizer extracts from a payload. -/
def respRawOf (data : PyVal) : PyVal := (extractRaw data).2.1

/-- Raw responses value as computed inside the first-element branch (used by
the mutation model). -/
def respRawFromFirst (fm : List (String × PyVal)) : PyVal :=
  match lookupKV fm "responses" with
  | some rv => rv
  | none =>
      if hasKeyKV fm "headline" || hasKeyKV fm "personalized_response" then
        .arr [.obj fm]
      else
        .arr []

/-- Value of the input payload after `parse_workflow_response` returns (or
raises): the `setdefault` loop mutates the nested sentiment dict in place,
so the input is updated at that position; when `len(responses)` raises, the
`TypeError` fires before any `setdefault` call, leaving the input intact. -/
def parse_post (data : PyVal) : PyVal :=
  match data with
  | .obj m =>
      match lookupKV m "sentiment" with
      | some (.obj skvs) =>
          match pyLen ((lookupKV m "responses").getD (.arr [])) with
          | some n => .obj (updateKV m "sentiment" (.obj (pySetdefaults skvs n)))
          | none => .obj m
      | _ => .obj m
  | .arr (.obj fm :: rest) =>
      match lookupKV fm "sentiment" with
      | some (.obj skvs) =>
          match pyLen (respRawFromFirst fm) with
          | some n =>
              .arr (.obj (updateKV fm "sentiment" (.obj (pySetdefaults skvs n))) :: rest)
          | none => .arr (.obj fm :: rest)
      | some _ => .arr (.obj fm :: rest)
      | none =>
          match pyLen (respRawFromFirst fm) with
          | some n => .arr (.obj (pySetdefaults fm n) :: rest)
          | none => .arr (.obj fm :: rest)
  | v => v

/-- Sentiment value located inside the input payload itself (as opposed to
the fresh empty dict the code substitutes when the key is absent): the
region `setdefault` can mutate. -/
def sentSlotOf (data : PyVal) : Option PyVal :=
  match data with
  | .obj m => lookupKV m "sentiment"
  | .arr (.obj fm :: _) => some ((lookupKV fm "sentiment").getD (.obj fm))
  | _ => none

/-- Sentiment predicate of `_filter_responses` (line 138): the entry is a
dict and `str(r.get("ai_sentiment", "")).lower()` equals the canonicalized
filter value. -/
def sentMatches (sent : String) : PyVal → Bool
  | .obj m => pyToLower (pyStrTop (getDKV m "ai_sentiment" (.str ""))) == sent
  | _ => false

/-- Python `(x or [])` followed by iteration, for an optional dict entry:
absent or falsy yields the empty iteration, a truthy value is iterated
(`TypeError` when it is not iterable). -/
def iterOrEmptyKV (m : List (String × PyVal)) (k : String) :
    Except Unit (List PyVal) :=
  match lookupKV m k with
  | none => .ok []
  | some v => if pyTruthy v then pyIterE v else .ok []

/-- Theme predicate of `_filter_responses` (line 141): the entry is a dict
and the canonicalized filter key occurs among
`[str(t).lower() for t in (r.get("ai_themes") or [])]`; iterating a truthy
non-iterable `ai_themes` value is a `TypeError`. -/
def themeMatchesE (tk : String) : PyVal → Except Unit Bool
  | .obj m => do
      let ts ← iterOrEmptyKV m "ai_themes"
      .ok (tk ∈ ts.map (fun t => pyToLower (pyStrTop t)))
  | _ => .ok false

/-- Order-preserving effectful filter (a Python list comprehension whose
predicate may raise). -/
def filterE (p : PyVal → Except Unit Bool) : List PyVal → Except Unit (List PyVal)
  | [] => .ok []
  | r :: rs => do
      let b ← p r
      let rest ← filterE p rs
      .ok (if b then r :: rest else rest)

/-- Blank-filter test: `x and x.strip()` is falsy exactly when the string
trims to empty. -/
def pyBlank (s : String) : Bool := pyStrip s == ""

/-- The record filter `_filter_responses` (lines 132-142). -/
def filter_responses (responses : List PyVal) (sentiment_filter theme_filter : String) :
    Except Unit (List PyVal) :=
  if responses.isEmpty then .ok []
  else
    let f1 :=
      if !pyBlank sentiment_filter then
        responses.filter (sentMatches (pyToLower (pyStrip sentiment_filter)))
      else responses
    if !pyBlank theme_filter then
      filterE (themeMatchesE (pyToLower (pyStrip theme_filter))) f1
    else .ok f1

/-- The stop-word set `STOPWORDS` (lines 44-51). -/
def STOPWORDS : List String :=
  ["a", "an", "the", "and", "or", "but", "in", "on", "at", "to", "for", "of", "with",
   "by", "from", "as", "is", "was", "are", "were", "been", "be", "have", "has", "had",
   "do", "does", "did", "will", "would", "could", "should", "may", "might", "must",
   "can", "this", "that", "these", "those", "i", "you", "he", "she", "it", "we", "they",
   "my", "your", "his", "her", "its", "our", "their", "me", "him", "us", "them",
   "so", "if", "than", "when", "while", "where", "because", "just", "very", "also"]

/-- Word character of the regex class `\w` (ASCII model): letters, digits and
underscore.  Note digits and underscore are word characters, so `\b` places
no boundary between a letter and a digit. -/
def isWordChar (c : Char) : Bool := c.isAlphanum || c == '_'

/-- Lowercase ASCII letter, the regex class `[a-z]`. -/
def isLowerAlpha (c : Char) : Bool := decide ('a' ≤ c) && decide (c ≤ 'z')

/-- Split a character list into its maximal runs of word characters (`acc`
holds the current run, reversed). -/
def wordRunsAux : List Char → List Char → List (List Char)
  | [], acc => if acc.isEmpty then [] else [acc.reverse]
  | c :: rest, acc =>
      if isWordChar c then wordRunsAux rest (c :: acc)
      else if acc.isEmpty then wordRunsAux rest []
      else acc.reverse :: wordRunsAux rest []

/-- Maximal word-character runs of a string, left to right. -/
def wordRuns (s : String) : List (List Char) := wordRunsAux s.toList []

/-- Python `re.findall(r"\b[a-z]\x7b3,\x7d\b", s)`: because `\b` only
separates word from non-word characters, the matches are exactly the maximal
word-character runs that consist solely of lowercase letters and have length
at least 3 (an alphabetic run adjacent to a digit or underscore is part of a
longer word run and is not matched). -/
def findallAZ3 (s : String) : List String :=
  (wordRuns s).filterMap (fun run =>
    if 3 ≤ run.length && run.all isLowerAlpha then some (String.mk run) else none)

/-- Text assembly `_get_review_text` (lines 145-153): concatenate, over the
five keys in priority order, a non-blank string value as-is, or the
stringified truthy elements of a list value, joined with single spaces. -/
def get_review_text (m : List (String × PyVal)) : String :=
  let parts := (["summary", "content_clean", "headline", "full_title",
                 "personalized_response"] : List String).foldl
    (fun (acc : List String) key =>
      match lookupKV m key with
      | some (.str s) => if pyStrip s != "" then acc ++ [s] else acc
      | some (.arr xs) =>
          acc ++ xs.filterMap (fun x => if pyTruthy x then some (pyStrTop x) else none)
      | _ => acc)
    []
  joinWith " " parts

/-- The keyword extractor `extract_keywords_from_reviews` (lines 156-166). -/
def extract_keywords_from_reviews (responses : List PyVal) (top_n : Nat) :
    List (String × Nat) :=
  let words := responses.foldl
    (fun (ws : List String) r =>
      match r with
      | .obj m =>
          let text := get_review_text m
          if text == "" then ws
          else
            let tokens := findallAZ3 (pyToLower text)
            ws ++ tokens.filter (fun t => !(STOPWORDS.contains t))
      | _ => ws)
    []
  mostCommon (tallyList words) top_n

/-- Modelled from the spec wording: maximal runs of alphabetic characters
(`acc` holds the current run, reversed); every non-alphabetic character is a
boundary. -/
def alphaRunsAux : List Char → List Char → List (List Char)
  | [], acc => if acc.isEmpty then [] else [acc.reverse]
  | c :: rest, acc =>
      if c.isAlpha then alphaRunsAux rest (c :: acc)
      else if acc.isEmpty then alphaRunsAux rest []
      else acc.reverse :: alphaRunsAux rest []

/-- Maximal alphabetic runs of a string, left to right (spec-side
tokenizer helper). -/
def alphaRuns (s : String) : List (List Char) := alphaRunsAux s.toList []

/-- Modelled from the spec wording, for comparison with the code: tokens are
maximal runs of alphabetic characters of length at least 3, with every
non-alphabetic character — including digits — acting as a token boundary. -/
def specTokensDigitBoundary (s : String) : List String :=
  (alphaRuns s).filterMap (fun run =>
    if 3 ≤ run.length then some (String.mk run) else none)

/-- Modelled from the spec wording, for comparison with the code: the
keyword extractor with the digit-as-boundary tokenizer substituted. -/
def specExtractKeywords (responses : List PyVal) (top_n : Nat) :
    List (String × Nat) :=
  let words := responses.foldl
    (fun (ws : List String) r =>
      match r with
      | .obj m =>
          let text := get_review_text m
          if text == "" then ws
          else
            let tokens := specTokensDigitBoundary (pyToLower text)
            ws ++ tokens.filter (fun t => !(STOPWORDS.contains t))
      | _ => ws)
    []
  mostCommon (tallyList words) top_n

/-- Labels contributed by one record to the keyword fallback tally (lines
434-443): truthy entries of `ai_themes` then of `ai_concerns`, each rendered
as `str(t).replace("_", " ").title()`. -/
def recordLabels (m : List (String × PyVal)) : Except Unit (List String) := do
  let ts ← iterOrEmptyKV m "ai_themes"
  let cs ← iterOrEmptyKV m "ai_concerns"
  let render := fun (t : PyVal) =>
    if pyTruthy t then some (pyTitle (pyReplace (pyStrTop t) "_" " ")) else none
  .ok (ts.filterMap render ++ cs.filterMap render)

/-- All fallback labels across a record set, skipping non-dict entries. -/
def fallbackLabels : List PyVal → Except Unit (List String)
  | [] => .ok []
  | r :: rs => do
      let l1 ← (match r with | .obj m => recordLabels m | _ => .ok [])
      let rest ← fallbackLabels rs
      .ok (l1 ++ rest)

/-- The keyword fallback tally (line 444):
`sorted(theme_counts.items(), key=lambda x: -x[1])[:n]`. -/
def fallback_tally (filtered : List PyVal) (n : Nat) :
    Except Unit (List (String × Nat)) := do
  let ls ← fallbackLabels filtered
  .ok (mostCommon (tallyList ls) n)

/-- The keyword block of the third tab (lines 430-444): clamp the requested
count to `[10, 50]`, run the extractor, and fall back to the theme/concern
tally when the extractor returns nothing. -/
def tab3_keywords (filtered : List PyVal) (top_kw : Nat) :
    Except Unit (List (String × Nat)) :=
  let n := max 10 (min 50 top_kw)
  let kws := extract_keywords_from_reviews filtered n
  if kws.isEmpty then fallback_tally filtered n else .ok kws

/-- Pie-chart inputs of `build_all_charts` (lines 222-226): the three counts
read from the summary with default `0`, replaced by `(1, 1, 1)` when their
sum compares equal to `0`; a sum that is not even defined (mixed-type
addition) is a `TypeError`. -/
def pieValues (skvs : List (String × PyVal)) : Except Unit (PyVal × PyVal × PyVal) := do
  let pos := getDKV skvs "positiveCount" (.num 0)
  let neu := getDKV skvs "neutralCount" (.num 0)
  let neg := getDKV skvs "negativeCount" (.num 0)
  let s1 ← pyAdd pos neu
  let s2 ← pyAdd s1 neg
  if pyEqZeroNum s2 then .ok (.num 1, .num 1, .num 1) else .ok (pos, neu, neg)

/-- Truthy-chained `d.get(k)`: the stored value when present and truthy. -/
def truthyGetKV (m : List (String × PyVal)) (k : String) : Option PyVal :=
  match lookupKV m k with
  | some v => if pyTruthy v then some v else none
  | none => none

/-- Source name assigned to one record by `_derive_source_breakdown` (lines
206-207): `src = r.get("feed_type") or r.get("source") or "Other"`, then
`"Amazon Reviews"` when `"amazon"` occurs in `str(src).lower()` and
`"Google News"` for every other source. -/
def deriveSourceName (m : List (String × PyVal)) : String :=
  let src := (truthyGetKV m "feed_type").getD
    ((truthyGetKV m "source").getD (.str "Other"))
  if containsSub "amazon" (pyToLower (pyStrTop src)) then "Amazon Reviews"
  else "Google News"

/-- Source names of the dict entries of a record list, in order. -/
def sourceNames (responses : List PyVal) : List String :=
  responses.filterMap (fun r =>
    match r with
    | .obj m => some (deriveSourceName m)
    | _ => none)

/-- The record-derived source tally `_derive_source_breakdown` (lines
201-209): count records per derived source name, keys in first-seen
order. -/
def derive_source_breakdown (responses : List PyVal) : List (String × Nat) :=
  tallyList (sourceNames responses)

/-- Source-name canonicalization of the chart loop (lines 269-271): a name
containing `"amazon"` becomes `"Amazon Reviews"`, otherwise it is
title-cased with underscores replaced by spaces; a subsequent check maps any
name containing `"google"`, `"rss"` or `"news"` to `"Google News"`,
overriding the previous assignment. -/
def canonChartSource (src : PyVal) : String :=
  let ls := pyToLower (pyStrTop src)
  let n0 := if containsSub "amazon" ls then "Amazon Reviews"
    else pyTitle (pyReplace (pyStrTop src) "_" " ")
  if containsSub "google" ls || containsSub "rss" ls || containsSub "news" ls then
    "Google News"
  else n0

/-- Value paired with one source entry (lines 273-278): for a dict,
`stats.get("total", ...)` whose default — the sum of the three per-sentiment
entries — Python evaluates eagerly even when `"total"` is present; for a
number (bools included) `int(stats)`; anything else `1`. -/
def statsValue (stats : PyVal) : Except Unit PyVal :=
  match stats with
  | .obj m => do
      let s1 ← pyAdd (getDKV m "positive" (.num 0)) (getDKV m "neutral" (.num 0))
      let d ← pyAdd s1 (getDKV m "negative" (.num 0))
      .ok ((lookupKV m "total").getD d)
  | .num n => .ok (.num n)
  | .fnum n => .ok (.num n)
  | .bool b => .ok (.num (if b then 1 else 0))
  | _ => .ok (.num 1)

/-- Canonicalize and evaluate a list of `(source, stats)` items into chart
labels and values, in order (lines 265-278). -/
def mapSourceItems : List (PyVal × PyVal) → Except Unit (List (String × PyVal))
  | [] => .ok []
  | item :: rest => do
      let v ← statsValue item.2
      let tl ← mapSourceItems rest
      .ok ((canonChartSource item.1, v) :: tl)

/-- Keep the list/tuple elements of length at least 2 as `(src, stats)`
pairs (line 267). -/
def asSourcePair : PyVal → Option (PyVal × PyVal)
  | .arr (a :: b :: _) => some (a, b)
  | _ => none

/-- The `bySource` series of `build_all_charts` (lines 229, 234-237 and
264-283): take the first five entries when `sourceBreakdown` is a dict;
when the result is falsy and records exist, derive the breakdown from the
records; then canonicalize each entry into a `(label, value)` pair.  A
truthy non-dict `sourceBreakdown` is iterated directly (a `TypeError` when
not iterable), keeping only its list-shaped pairs. -/
def bySourceSeries (skvs : List (String × PyVal)) (responses : List PyVal) :
    Except Unit (List (String × PyVal)) :=
  let sbRaw := getDKV skvs "sourceBreakdown" (.obj [])
  match sbRaw with
  | .obj kvs =>
      let items := (kvs.map (fun kv => (PyVal.str kv.1, kv.2))).take 5
      if items.isEmpty && !responses.isEmpty then
        mapSourceItems ((derive_source_breakdown responses).map
          (fun p => (PyVal.str p.1, PyVal.num (Int.ofNat p.2))))
      else
        mapSourceItems items
  | v =>
      if !pyTruthy v && !responses.isEmpty then
        mapSourceItems ((derive_source_breakdown responses).map
          (fun p => (PyVal.str p.1, PyVal.num (Int.ofNat p.2))))
      else if pyTruthy v then do
        let elems ← pyIterE v
        mapSourceItems (elems.filterMap asSourcePair)
      else .ok []

/-- Count stored for key `k` in a count table (0 when absent). -/
def countOfKey : List (String × Nat) → String → Nat
  | [], _ => 0
  | p :: rest, k => if p.1 = k then p.2 else countOfKey rest k

theorem bumpCount_count_same (acc : List (String × Nat)) (k : String) :
    countOfKey (bumpCount acc k) k = countOfKey acc k + 1 := by
  induction acc with
  | nil => simp [bumpCount, countOfKey]
  | cons p rest ih =>
      by_cases h : p.1 = k
      · simp [bumpCount, countOfKey, h]
      · simp [bumpCount, countOfKey, h, ih]

theorem bumpCount_count_other (acc : List (String × Nat)) (k k2 : String)
    (hne : k2 ≠ k) :
    countOfKey (bumpCount acc k) k2 = countOfKey acc k2 := by
  have hne2 : k ≠ k2 := fun h => hne h.symm
  induction acc with
  | nil => simp [bumpCount, countOfKey, hne2]
  | cons p rest ih =>
      by_cases h : p.1 = k
      · have hp2 : p.1 ≠ k2 := h ▸ hne2
        simp [bumpCount, countOfKey, h, hp2, hne2]
      · by_cases h2 : p.1 = k2 <;> simp [bumpCount, countOfKey, h, h2, hne, ih]

theorem tally_foldl_count (ws : List String) (acc : List (String × Nat)) (k : String) :
    countOfKey (ws.foldl bumpCount acc) k = countOfKey acc k + ws.count k := by
  induction ws generalizing acc with
  | nil => simp
  | cons w ws ih =>
      by_cases h : w = k
      · subst h
        rw [List.foldl_cons, ih, bumpCount_count_same, List.count_cons]
        simp
        omega
      · rw [List.foldl_cons, ih, bumpCount_count_other acc w k (fun hh => h hh.symm),
          List.count_cons]
        simp [h]

theorem tallyList_count (ws : List String) (k : String) :
    countOfKey (tallyList ws) k = ws.count k := by
  have := tally_foldl_count ws [] k
  simpa [tallyList, countOfKey] using this

theorem bumpCount_key_mem (acc : List (String × Nat)) (k k2 : String) :
    k2 ∈ (bumpCount acc k).map Prod.fst ↔ k2 ∈ acc.map Prod.fst ∨ k2 = k := by
  induction acc with
  | nil => simp [bumpCount]
  | cons p rest ih =>
      by_cases h : p.1 = k
      · subst h
        simp [bumpCount]
        tauto
      · have hb : (p.1 == k) = false := by simp [h]
        simp only [bumpCount, hb, Bool.false_eq_true, if_false, List.map_cons,
          List.mem_cons, ih]
        tauto

theorem tally_foldl_key_mem (ws : List String) (acc : List (String × Nat)) (k : String) :
    k ∈ (ws.foldl bumpCount acc).map Prod.fst ↔ k ∈ acc.map Prod.fst ∨ k ∈ ws := by
  induction ws generalizing acc with
  | nil => simp
  | cons w ws ih =>
      rw [List.foldl_cons, ih, bumpCount_key_mem, List.mem_cons]
      tauto

theorem tallyList_key_mem (ws : List String) (k : String) :
    k ∈ (tallyList ws).map Prod.fst ↔ k ∈ ws := by
  rw [tallyList, tally_foldl_key_mem]
  simp

theorem bumpCount_keys_nodup (acc : List (String × Nat)) (k : String)
    (h : (acc.map Prod.fst).Nodup) : ((bumpCount acc k).map Prod.fst).Nodup := by
  induction acc with
  | nil => simp [bumpCount]
  | cons p rest ih =>
      rw [List.map_cons, List.nodup_cons] at h
      by_cases hk : p.1 = k
      · have hb : (p.1 == k) = true := by simp [hk]
        simp only [bumpCount, hb, if_true, List.map_cons, List.nodup_cons]
        exact h
      · have hb : (p.1 == k) = false := by simp [hk]
        simp only [bumpCount, hb, Bool.false_eq_true, if_false, List.map_cons,
          List.nodup_cons]
        refine ⟨?_, ih h.2⟩
        rw [bumpCount_key_mem]
        rintro (hm | hm)
        · exact h.1 hm
        · exact hk hm

theorem tally_foldl_keys_nodup (ws : List String) (acc : List (String × Nat))
    (h : (acc.map Prod.fst).Nodup) :
    ((ws.foldl bumpCount acc).map Prod.fst).Nodup := by
  induction ws generalizing acc with
  | nil => simpa
  | cons w ws ih => exact ih _ (bumpCount_keys_nodup acc w h)

theorem tallyList_keys_nodup (ws : List String) :
    ((tallyList ws).map Prod.fst).Nodup :=
  tally_foldl_keys_nodup ws [] (by simp)

theorem mem_countOfKey_of_nodup (tl : List (String × Nat)) (k : String) (c : Nat)
    (hnd : (tl.map Prod.fst).Nodup) (hmem : (k, c) ∈ tl) :
    countOfKey tl k = c := by
  induction tl with
  | nil => cases hmem
  | cons p rest ih =>
      rw [List.map_cons, List.nodup_cons] at hnd
      rcases List.mem_cons.mp hmem with h | h
      · rw [← h]; simp [countOfKey]
      · have hpk : p.1 ≠ k := by
          intro hh
          exact hnd.1 (hh ▸ List.mem_map.mpr ⟨(k, c), h, rfl⟩)
        rw [countOfKey, if_neg hpk]
        exact ih hnd.2 h

/-- Characterization of the `Counter` table: `(k, c)` is an entry exactly
when `c` is positive and equals the number of occurrences of `k`. -/
theorem tallyList_mem_iff (ws : List String) (k : String) (c : Nat) :
    (k, c) ∈ tallyList ws ↔ 0 < c ∧ c = ws.count k := by
  constructor
  · intro hmem
    have hc := mem_countOfKey_of_nodup _ _ _ (tallyList_keys_nodup ws) hmem
    have hk : k ∈ ws := (tallyList_key_mem ws k).mp
      (List.mem_map.mpr ⟨(k, c), hmem, rfl⟩)
    have hcount := tallyList_count ws k
    have hpos : 0 < ws.count k := List.count_pos_iff.mpr hk
    exact ⟨by omega, by omega⟩
  · rintro ⟨hpos, rfl⟩
    have hk : k ∈ ws := by
      by_contra hk
      rw [List.count_eq_zero_of_not_mem hk] at hpos
      exact Nat.lt_irrefl 0 hpos
    have hkey : k ∈ (tallyList ws).map Prod.fst := (tallyList_key_mem ws k).mpr hk
    rcases List.mem_map.mp hkey with ⟨⟨pk, pc⟩, hp, hfst⟩
    simp only at hfst
    subst hfst
    have hcount := mem_countOfKey_of_nodup _ _ _ (tallyList_keys_nodup ws) hp
    rw [tallyList_count] at hcount
    rw [hcount]
    exact hp

theorem mem_of_mem_mostCommon (tl : List (String × Nat)) (n : Nat)
    (p : String × Nat) (h : p ∈ mostCommon tl n) : p ∈ tl := by
  have := List.take_subset n (sortDescCount tl) h
  rwa [sortDescCount, List.mem_insertionSort] at this

/-- Boolean form of the theme predicate, meaningful on records whose
`ai_themes` entry iterates without error. -/
def themeMatchesB (tk : String) : PyVal → Bool
  | .obj m =>
      match iterOrEmptyKV m "ai_themes" with
      | .ok ts => tk ∈ ts.map (fun t => pyToLower (pyStrTop t))
      | .error _ => false
  | _ => false

/-- Records on which the theme predicate cannot raise (the `ai_themes` entry
is absent, falsy, or iterable). -/
def themeIterOk : PyVal → Bool
  | .obj m =>
      match iterOrEmptyKV m "ai_themes" with
      | .ok _ => true
      | .error _ => false
  | _ => true

theorem exceptOkBind {A B : Type} (a : A) (f : A → Except Unit B) :
    (Except.ok a : Except Unit A) >>= f = f a := rfl

theorem themeMatchesE_eq (tk : String) (r : PyVal) (h : themeIterOk r = true) :
    themeMatchesE tk r = .ok (themeMatchesB tk r) := by
  cases r with
  | obj m =>
      cases hit : iterOrEmptyKV m "ai_themes" with
      | ok ts => simp [themeMatchesE, themeMatchesB, hit, exceptOkBind]
      | error e => simp [themeIterOk, hit] at h
  | null => rfl
  | bool b => rfl
  | num n => rfl
  | fnum n => rfl
  | str s => rfl
  | arr xs => rfl

theorem filterE_ok (p : PyVal → Except Unit Bool) (q : PyVal → Bool)
    (l : List PyVal) (h : ∀ r ∈ l, p r = .ok (q r)) :
    filterE p l = .ok (l.filter q) := by
  induction l with
  | nil => rfl
  | cons r rs ih =>
      have hr := h r (List.mem_cons_self r rs)
      have hrs : ∀ x ∈ rs, p x = .ok (q x) := fun x hx => h x (List.mem_cons_of_mem r hx)
      rw [List.filter_cons]
      by_cases hq : q r = true <;>
        simp [filterE, hr, ih hrs, exceptOkBind, hq]

theorem wordRunsAux_infix (cs : List Char) :
    ∀ (acc run : List Char), run ∈ wordRunsAux cs acc → run <:+: (acc.reverse ++ cs) := by
  induction cs with
  | nil =>
      intro acc run h
      by_cases ha : acc.isEmpty
      · simp [wordRunsAux, ha] at h
      · simp only [wordRunsAux, ha, Bool.false_eq_true, if_false,
          List.mem_singleton] at h
        subst h
        simp
  | cons c rest ih =>
      intro acc run h
      rw [wordRunsAux] at h
      by_cases hw : isWordChar c = true
      · rw [if_pos hw] at h
        have := ih (c :: acc) run h
        simpa [List.append_assoc] using this
      · rw [if_neg hw] at h
        by_cases ha : acc.isEmpty
        · rw [if_pos ha] at h
          have h2 : run <:+: rest := by simpa using ih [] run h
          have h3 : run <:+: c :: rest := List.infix_cons h2
          have h4 : (c :: rest) <:+: acc.reverse ++ (c :: rest) :=
            (List.suffix_append acc.reverse (c :: rest)).isInfix
          exact h3.trans h4
        · rw [if_neg ha] at h
          rcases List.mem_cons.mp h with h | h
          · subst h
            have hpre := List.prefix_append acc.reverse (c :: rest)
            exact hpre.isInfix
          · have h2 : run <:+: rest := by simpa using ih [] run h
            have h3 : run <:+: c :: rest := List.infix_cons h2
            have h4 : (c :: rest) <:+: acc.reverse ++ (c :: rest) :=
              (List.suffix_append acc.reverse (c :: rest)).isInfix
            exact h3.trans h4

theorem mem_findallAZ3 (w s : String) (h : w ∈ findallAZ3 s) :
    3 ≤ w.length ∧ w.toList.all isLowerAlpha = true ∧ w.toList <:+: s.toList := by
  rcases List.mem_filterMap.mp h with ⟨run, hrun, hif⟩
  by_cases hc : (3 ≤ run.length && run.all isLowerAlpha) = true
  · rw [if_pos hc] at hif
    cases hif
    rcases Bool.and_eq_true_iff.mp hc with ⟨hlen, halpha⟩
    refine ⟨by simpa [String.length] using of_decide_eq_true hlen, halpha, ?_⟩
    have := wordRunsAux_infix s.toList [] run hrun
    simpa using this
  · rw [if_neg hc] at hif
    cases hif

/-- Tokens contributed by one record inside `extract_keywords_from_reviews`:
nothing for a non-dict entry or an empty text, otherwise the regex matches
of the lowercased text minus the stop words. -/
def recordTokens : PyVal → List String
  | .obj m =>
      let text := get_review_text m
      if text == "" then []
      else (findallAZ3 (pyToLower text)).filter (fun t => !(STOPWORDS.contains t))
  | _ => []

theorem extract_fold_eq (l : List PyVal) (init : List String) :
    l.foldl
      (fun (ws : List String) r =>
        match r with
        | .obj m =>
            let text := get_review_text m
            if text == "" then ws
            else
              let tokens := findallAZ3 (pyToLower text)
              ws ++ tokens.filter (fun t => !(STOPWORDS.contains t))
        | _ => ws)
      init = init ++ (l.map recordTokens).flatten := by
  induction l generalizing init with
  | nil => simp
  | cons r rs ih =>
      rw [List.foldl_cons, ih]
      have hbody : ∀ (ws : List String),
          (match r with
            | .obj m =>
                let text := get_review_text m
                if text == "" then ws
                else
                  let tokens := findallAZ3 (pyToLower text)
                  ws ++ tokens.filter (fun t => !(STOPWORDS.contains t))
            | _ => ws) = ws ++ recordTokens r := by
        intro ws
        cases r with
        | obj m =>
            simp only [recordTokens]
            by_cases ht : (get_review_text m == "") = true <;> simp [ht]
        | null => simp [recordTokens]
        | bool b => simp [recordTokens]
        | num n => simp [recordTokens]
        | fnum n => simp [recordTokens]
        | str s => simp [recordTokens]
        | arr xs => simp [recordTokens]
      rw [hbody]
      simp

theorem extract_keywords_eq (responses : List PyVal) (top_n : Nat) :
    extract_keywords_from_reviews responses top_n =
      mostCommon (tallyList ((responses.map recordTokens).flatten)) top_n := by
  rw [extract_keywords_from_reviews, extract_fold_eq]
  simp

theorem filter_responses_both (responses : List PyVal) (sf tf : String)
    (hbs : pyBlank sf = false) (hbt : pyBlank tf = false) :
    filter_responses responses sf tf =
      filterE (themeMatchesE (pyToLower (pyStrip tf)))
        (responses.filter (sentMatches (pyToLower (pyStrip sf)))) := by
  cases responses with
  | nil => rfl
  | cons r rs => simp [filter_responses, hbs, hbt]

/-- C6 counterexample: with both filters blank, `_filter_responses` returns
the input list unchanged — the non-record entry `5` is kept, not dropped, so
`filter(records, "", "")` is not the identity on the record-only
subsequence but on the whole input. -/
theorem claim_C6_counterexample :
    filter_responses [PyVal.num 5] "" "" = .ok [PyVal.num 5] ∧
      [PyVal.num 5] ≠ ([] : List PyVal) := ⟨rfl, by simp⟩

/-- C6 (amended): with both filter values blank after stripping,
`_filter_responses` returns the input sequence unchanged — including any
non-record entries; non-records are only dropped when a filter is
active. -/
theorem claim_C6_amended (responses : List PyVal) (sf tf : String)
    (hs : pyStrip sf = "") (ht : pyStrip tf = "") :
    filter_responses responses sf tf = .ok responses := by
  have hbs : pyBlank sf = true := by simp [pyBlank, hs]
  have hbt : pyBlank tf = true := by simp [pyBlank, ht]
  cases responses with
  | nil => simp [filter_responses]
  | cons r rs => simp [filter_responses, hbs, hbt]

/-- C6 witness: blank and whitespace-only filters act as the identity on a
concrete list. -/
theorem claim_C6_witness :
    filter_responses [PyVal.str "x"] " " "" = .ok [PyVal.str "x"] :=
  claim_C6_amended [PyVal.str "x"] " " "" rfl rfl

/-- C7: filtering with `sentiment="positive"` and a blank theme keeps
exactly the dict records whose canonicalized (`str(...).lower()`) sentiment
label is `"positive"`; and with both filters active the result is the
records satisfying the conjunction of the two predicates — equal to
filtering by theme first and then by sentiment, so the two filters compose
by order-independent intersection (theme matching is exact case-insensitive
membership in the `ai_themes` sequence).  The third hypothesis restricts to
records whose `ai_themes` value iterates without a `TypeError`, as the data
model guarantees (`themes` is a sequence). -/
theorem claim_C7 :
    (∀ responses : List PyVal,
        filter_responses responses "positive" "" =
          .ok (responses.filter (sentMatches "positive"))) ∧
    (∀ (responses : List PyVal) (sf tf : String),
        pyStrip sf ≠ "" → pyStrip tf ≠ "" →
        (∀ r ∈ responses, themeIterOk r = true) →
        filter_responses responses sf tf =
            .ok (responses.filter (fun r =>
              sentMatches (pyToLower (pyStrip sf)) r &&
                themeMatchesB (pyToLower (pyStrip tf)) r)) ∧
          filter_responses responses sf tf =
            .ok ((responses.filter
                (themeMatchesB (pyToLower (pyStrip tf)))).filter
              (sentMatches (pyToLower (pyStrip sf))))) := by
  constructor
  · intro responses
    cases responses with
    | nil => rfl
    | cons r rs =>
        have h1 : pyBlank "positive" = false := rfl
        have h2 : pyBlank "" = true := rfl
        have h3 : pyToLower (pyStrip "positive") = "positive" := rfl
        simp [filter_responses, h1, h2, h3]
  · intro responses sf tf hsf htf hok
    have hbs : pyBlank sf = false := by simp [pyBlank, hsf]
    have hbt : pyBlank tf = false := by simp [pyBlank, htf]
    have hq : ∀ x ∈ responses.filter (sentMatches (pyToLower (pyStrip sf))),
        themeMatchesE (pyToLower (pyStrip tf)) x =
          .ok (themeMatchesB (pyToLower (pyStrip tf)) x) := by
      intro x hx
      exact themeMatchesE_eq _ x (hok x (List.mem_of_mem_filter hx))
    have hfe := filterE_ok _ (themeMatchesB (pyToLower (pyStrip tf))) _ hq
    rw [filter_responses_both responses sf tf hbs hbt, hfe]
    constructor
    · rw [List.filter_filter]
      congr 1
      apply List.filter_congr
      intro x hx
      exact Bool.and_comm _ _
    · rw [List.filter_filter, List.filter_filter]
      congr 1
      apply List.filter_congr
      intro x hx
      exact Bool.and_comm _ _

/-- C7 witness: both filters active on a concrete record with matching
sentiment and theme keep exactly that record. -/
theorem claim_C7_witness :
    filter_responses
        [PyVal.obj [("ai_sentiment", .str "Positive"),
          ("ai_themes", .arr [.str "Camera_Quality"])]]
        "positive" "camera_quality" =
      .ok [PyVal.obj [("ai_sentiment", .str "Positive"),
        ("ai_themes", .arr [.str "Camera_Quality"])]] := by
  have h := (claim_C7.2
    [PyVal.obj [("ai_sentiment", .str "Positive"),
      ("ai_themes", .arr [.str "Camera_Quality"])]]
    "positive" "camera_quality"
    (by decide) (by decide) (by decide)).1
  rw [h]
  rfl

/-- C3: for a summary whose three counts are integers, `build_all_charts`
replaces the pie values by `(1, 1, 1)` exactly when all three counts are
zero (absent counts default to `0`), and passes the three counts through
unchanged when at least one is nonzero; the non-negativity hypotheses match
the data-model invariant `integer ≥ 0` on the counts. -/
theorem claim_C3 (skvs : List (String × PyVal)) (p u g : Int)
    (hp : getDKV skvs "positiveCount" (.num 0) = .num p)
    (hu : getDKV skvs "neutralCount" (.num 0) = .num u)
    (hg : getDKV skvs "negativeCount" (.num 0) = .num g)
    (hp0 : 0 ≤ p) (hu0 : 0 ≤ u) (hg0 : 0 ≤ g) :
    ((p = 0 ∧ u = 0 ∧ g = 0) →
        pieValues skvs = .ok (.num 1, .num 1, .num 1)) ∧
      ((p ≠ 0 ∨ u ≠ 0 ∨ g ≠ 0) →
        pieValues skvs = .ok (.num p, .num u, .num g)) := by
  constructor
  · rintro ⟨rfl, rfl, rfl⟩
    simp [pieValues, hp, hu, hg, pyAdd, pyEqZeroNum, exceptOkBind]
  · intro h
    have hsum : ¬(p + u + g = 0) := by omega
    simp [pieValues, hp, hu, hg, pyAdd, pyEqZeroNum, exceptOkBind, hsum]

/-- C3 witness: the all-absent (hence all-zero) summary yields the
degenerate `(1, 1, 1)` pie. -/
theorem claim_C3_witness : pieValues [] = .ok (.num 1, .num 1, .num 1) :=
  (claim_C3 [] 0 0 0 rfl rfl rfl (by decide) (by decide) (by decide)).1
    ⟨rfl, rfl, rfl⟩

/-- C9 counterexample: `parse_workflow_response` mutates its input — for the
payload holding an empty nested sentiment mapping, the `setdefault` loop
fills that mapping in place, so after the call the input object differs from
its original value. -/
theorem claim_C9_counterexample :
    parse_post (.obj [("sentiment", .obj [])]) =
        .obj [("sentiment", .obj
          [("totalItems", .num 0), ("positiveCount", .num 0),
           ("neutralCount", .num 0), ("negativeCount", .num 0),
           ("positivePercent", .num 0), ("neutralPercent", .num 0),
           ("negativePercent", .num 0), ("avgScore", .fnum 0),
           ("topThemes", .obj []), ("topConcerns", .obj []),
           ("sourceBreakdown", .obj [])])] ∧
      PyVal.obj [("sentiment", .obj
          [("totalItems", .num 0), ("positiveCount", .num 0),
           ("neutralCount", .num 0), ("negativeCount", .num 0),
           ("positivePercent", .num 0), ("neutralPercent", .num 0),
           ("negativePercent", .num 0), ("avgScore", .fnum 0),
           ("topThemes", .obj []), ("topConcerns", .obj []),
           ("sourceBreakdown", .obj [])])] ≠
        .obj [("sentiment", .obj [])] := by
  constructor
  · rfl
  · simp

/-- C9 (amended): `parse_workflow_response` is not pure — it fills the
nested sentiment mapping of its input in place — but it leaves the input
unmodified whenever the sentiment value extracted from inside the input is
not a mapping (in particular for scalars, empty sequences, and payloads
without a sentiment dict to default). -/
theorem claim_C9_amended (data : PyVal)
    (h : ∀ skvs, sentSlotOf data ≠ some (.obj skvs)) :
    parse_post data = data := by
  cases data with
  | obj m =>
      rw [parse_post]
      cases hl : lookupKV m "sentiment" with
      | none => rfl
      | some v =>
          cases v with
          | obj skvs =>
              exfalso
              exact h skvs (by rw [sentSlotOf, hl])
          | null => rfl
          | bool b => rfl
          | num n => rfl
          | fnum n => rfl
          | str s => rfl
          | arr xs => rfl
  | arr xs =>
      cases xs with
      | nil => rfl
      | cons first rest =>
          cases first with
          | obj fm =>
              rw [parse_post]
              cases hl : lookupKV fm "sentiment" with
              | none =>
                  exfalso
                  exact h fm (by rw [sentSlotOf, hl]; rfl)
              | some v =>
                  cases v with
                  | obj skvs =>
                      exfalso
                      exact h skvs (by rw [sentSlotOf, hl]; rfl)
                  | null => rfl
                  | bool b => rfl
                  | num n => rfl
                  | fnum n => rfl
                  | str s => rfl
                  | arr ys => rfl
          | null => rfl
          | bool b => rfl
          | num n => rfl
          | fnum n => rfl
          | str s => rfl
          | arr ys => rfl
  | null => rfl
  | bool b => rfl
  | num n => rfl
  | fnum n => rfl
  | str s => rfl

/-- C9 witness: a scalar payload carries no sentiment mapping and is left
unmodified. -/
theorem claim_C9_witness : parse_post (PyVal.num 5) = PyVal.num 5 :=
  claim_C9_amended (.num 5) (by intro skvs; simp [sentSlotOf])

theorem lookupKV_eq_none_of_hasKey_false (kvs : List (String × PyVal)) (k : String)
    (h : hasKeyKV kvs k = false) : lookupKV kvs k = none := by
  cases hl : lookupKV kvs k with
  | none => rfl
  | some v => rw [hasKeyKV, hl] at h; simp at h

/-- C10 (amended): for a sequence payload whose first element is a dict
lacking both the `sentiment` and the `responses` keys and containing a
`headline` or `personalized_response` field, the normalizer promotes that
very object to both roles: the returned summary and the sole returned record
are the same default-filled object (review fields plus summary defaults,
`totalItems` defaulting to 1, the length of the constructed one-element
response list). -/
theorem claim_C10_amended (fm : List (String × PyVal)) (rest : List PyVal)
    (h1 : hasKeyKV fm "sentiment" = false)
    (h2 : hasKeyKV fm "responses" = false)
    (h3 : (hasKeyKV fm "headline" || hasKeyKV fm "personalized_response") = true) :
    parse_workflow_response (.arr (.obj fm :: rest)) =
      .ok (.obj (pySetdefaults fm 1), [.obj (pySetdefaults fm 1)]) := by
  have hs := lookupKV_eq_none_of_hasKey_false fm "sentiment" h1
  have hr := lookupKV_eq_none_of_hasKey_false fm "responses" h2
  simp [parse_workflow_response, extractRaw, hs, hr, h3, parseFinish, pyLen, h1]

/-- C10 witness: a one-element sequence holding a headline-only review is
normalized to the default-filled object as summary and as the single
record. -/
theorem claim_C10_witness :
    parse_workflow_response (.arr [.obj [("headline", PyVal.str "x")]]) =
      .ok (.obj (pySetdefaults [("headline", PyVal.str "x")] 1),
        [.obj (pySetdefaults [("headline", PyVal.str "x")] 1)]) :=
  claim_C10_amended [("headline", PyVal.str "x")] [] rfl rfl rfl

/-- C10 counterexample: when the first element also carries a `responses`
key, the claim fails — the object is still used as the sentiment mapping,
but the record sequence comes from its `responses` value (here empty), so
the object is not returned as the sole record and `totalItems` defaults to
0, not 1. -/
theorem claim_C10_counterexample :
    parse_workflow_response
        (.arr [.obj [("headline", .str "x"), ("responses", .arr [])]]) =
      .ok (.obj [("headline", .str "x"), ("responses", .arr []),
        ("totalItems", .num 0), ("positiveCount", .num 0),
        ("neutralCount", .num 0), ("negativeCount", .num 0),
        ("positivePercent", .num 0), ("neutralPercent", .num 0),
        ("negativePercent", .num 0), ("avgScore", .fnum 0),
        ("topThemes", .obj []), ("topConcerns", .obj []),
        ("sourceBreakdown", .obj [])], []) ∧
      ([] : List PyVal) ≠ [PyVal.obj [("headline", .str "x")]] := ⟨rfl, by simp⟩

/-- C2 (amended): `normalize({"sentiment": S, "responses": R})` for a
mapping `S` and a list `R` returns the summary `S` with the absent defaults
filled in — `totalItems` defaulting to the length of `R`, not 0 — and the
record sequence exactly `R`, unchanged: non-record entries are NOT dropped
by the normalizer (they are only skipped later by the consumers). -/
theorem claim_C2_amended (skvs : List (String × PyVal)) (rs : List PyVal) :
    parse_workflow_response
        (.obj [("sentiment", .obj skvs), ("responses", .arr rs)]) =
      .ok (.obj (pySetdefaults skvs rs.length), rs) := rfl

/-- C2 counterexample: with `S = {}` and `R = [5]`, the returned records are
`[5]` — the non-record entry is kept, contradicting the claimed filtering —
and the summary gets `totalItems = 1` (the length of `R`), not the
documented default 0. -/
theorem claim_C2_counterexample :
    parse_workflow_response
        (.obj [("sentiment", .obj []), ("responses", .arr [.num 5])]) =
      .ok (.obj [("totalItems", .num 1), ("positiveCount", .num 0),
        ("neutralCount", .num 0), ("negativeCount", .num 0),
        ("positivePercent", .num 0), ("neutralPercent", .num 0),
        ("negativePercent", .num 0), ("avgScore", .fnum 0),
        ("topThemes", .obj []), ("topConcerns", .obj []),
        ("sourceBreakdown", .obj [])], [.num 5]) ∧
      [PyVal.num 5] ≠ ([] : List PyVal) := ⟨rfl, by simp⟩

theorem parse_eq_finish (data : PyVal) :
    parse_workflow_response data =
      parseFinish (sentRawOf data) (respRawOf data) (extractRaw data).2.2 := by
  rw [parse_workflow_response, sentRawOf, respRawOf]

theorem parseFinish_obj_some (skvs : List (String × PyVal)) (rRaw : PyVal)
    (sh : Option (List (String × PyVal))) (n : Nat) (hn : pyLen rRaw = some n) :
    ∃ rs, parseFinish (.obj skvs) rRaw sh = .ok (.obj (pySetdefaults skvs n), rs) := by
  rw [parseFinish]
  rw [hn]
  cases sh with
  | none => exact ⟨_, rfl⟩
  | some fm =>
      by_cases hk : hasKeyKV fm "sentiment" = true
      · simp only [hk, if_true]
        exact ⟨_, rfl⟩
      · simp only [Bool.not_eq_true] at hk
        simp only [hk, Bool.false_eq_true, if_false]
        exact ⟨_, rfl⟩

theorem parseFinish_obj_none (skvs : List (String × PyVal)) (rRaw : PyVal)
    (sh : Option (List (String × PyVal))) (hn : pyLen rRaw = none) :
    parseFinish (.obj skvs) rRaw sh = .error () := by
  rw [parseFinish, hn]

theorem parseFinish_nonobj (sRaw rRaw : PyVal) (sh : Option (List (String × PyVal)))
    (h : ∀ skvs, sRaw ≠ .obj skvs) :
    parseFinish sRaw rRaw sh = .ok (sRaw, pyWrapResponses rRaw) := by
  cases sRaw with
  | obj skvs => exact absurd rfl (h skvs)
  | null => rfl
  | bool b => rfl
  | num n => rfl
  | fnum n => rfl
  | str s => rfl
  | arr xs => rfl

/-- C1 (amended): the normalizer is total — returning a pair, with the
extracted sentiment default-filled when it is a mapping — except when the
extracted sentiment value is a mapping and the extracted responses value
supports no `len` (e.g. `None` or a number), in which case the
`setdefault("totalItems", len(responses))` line raises `TypeError`.  When
defaulting happens, `totalItems` defaults to the length of the raw
responses value (not 0); the count and percent fields default to 0,
`avgScore` to `0.0`, and the three breakdown mappings to empty mappings; a
non-mapping sentiment value is returned undefaulted. -/
theorem claim_C1_amended :
    (∀ data : PyVal,
        ((∀ skvs, sentRawOf data ≠ .obj skvs) ∨
          (pyLen (respRawOf data)).isSome = true) →
        ∃ s rs, parse_workflow_response data = .ok (s, rs)) ∧
    (∀ (data : PyVal) (skvs : List (String × PyVal)) (n : Nat),
        sentRawOf data = .obj skvs → pyLen (respRawOf data) = some n →
        ∃ rs, parse_workflow_response data =
          .ok (.obj (pySetdefaults skvs n), rs)) ∧
    (∀ (data : PyVal) (skvs : List (String × PyVal)),
        sentRawOf data = .obj skvs → pyLen (respRawOf data) = none →
        parse_workflow_response data = .error ()) := by
  refine ⟨?_, ?_, ?_⟩
  · intro data h
    rw [parse_eq_finish]
    cases hsv : sentRawOf data with
    | obj skvs =>
        rcases h with h | h
        · exact absurd hsv (h skvs)
        · rcases Option.isSome_iff_exists.mp h with ⟨n, hn⟩
          rcases parseFinish_obj_some skvs (respRawOf data) (extractRaw data).2.2 n hn
            with ⟨rs, hrs⟩
          exact ⟨_, rs, hrs⟩
    | null => exact ⟨_, _, parseFinish_nonobj _ _ _ (by simp)⟩
    | bool b => exact ⟨_, _, parseFinish_nonobj _ _ _ (by simp)⟩
    | num n => exact ⟨_, _, parseFinish_nonobj _ _ _ (by simp)⟩
    | fnum n => exact ⟨_, _, parseFinish_nonobj _ _ _ (by simp)⟩
    | str s => exact ⟨_, _, parseFinish_nonobj _ _ _ (by simp)⟩
    | arr xs => exact ⟨_, _, parseFinish_nonobj _ _ _ (by simp)⟩
  · intro data skvs n hs hn
    rw [parse_eq_finish, hs]
    exact parseFinish_obj_some skvs (respRawOf data) (extractRaw data).2.2 n hn
  · intro data skvs hs hn
    rw [parse_eq_finish, hs]
    exact parseFinish_obj_none skvs (respRawOf data) (extractRaw data).2.2 hn

/-- C1 witness: the theorem applied to the payload whose `responses` value
is `None` yields the `TypeError` outcome. -/
theorem claim_C1_witness :
    parse_workflow_response (.obj [("responses", PyVal.null)]) = .error () :=
  claim_C1_amended.2.2 (.obj [("responses", PyVal.null)]) [] rfl rfl

/-- C1 counterexample: the claim fails in two ways — the payload
`{"responses": None}` makes `normalize` raise (`len(None)` inside
`setdefault`), and for `{"responses": [{}]}` the absent `totalItems` is
filled with `len(responses) = 1`, not the documented default 0. -/
theorem claim_C1_counterexample :
    parse_workflow_response (.obj [("responses", PyVal.null)]) = .error () ∧
      parse_workflow_response (.obj [("responses", .arr [.obj []])]) =
        .ok (.obj [("totalItems", .num 1), ("positiveCount", .num 0),
          ("neutralCount", .num 0), ("negativeCount", .num 0),
          ("positivePercent", .num 0), ("neutralPercent", .num 0),
          ("negativePercent", .num 0), ("avgScore", .fnum 0),
          ("topThemes", .obj []), ("topConcerns", .obj []),
          ("sourceBreakdown", .obj [])], [.obj []]) ∧
      PyVal.num 1 ≠ PyVal.num 0 := ⟨rfl, rfl, by simp⟩

/-- C4 (amended): every keyword returned by the extractor is a contiguous
lowercase-alphabetic run of length at least 3 occurring in the lowercased
assembled text of some record, and is not a stop word; however the token
boundaries are the non-word characters of the regex (`\b`), NOT all
non-alphabetic characters: digits and underscores are word characters, so an
alphabetic run adjacent to a digit or underscore is not extracted (see the
counterexample). -/
theorem claim_C4_amended (responses : List PyVal) (top_n : Nat) (w : String) (c : Nat)
    (hmem : (w, c) ∈ extract_keywords_from_reviews responses top_n) :
    3 ≤ w.length ∧ w.toList.all isLowerAlpha = true ∧ w ∉ STOPWORDS ∧
      ∃ m, PyVal.obj m ∈ responses ∧
        w.toList <:+: (pyToLower (get_review_text m)).toList := by
  rw [extract_keywords_eq] at hmem
  have h1 := mem_of_mem_mostCommon _ _ _ hmem
  have h2 : w ∈ (responses.map recordTokens).flatten :=
    (tallyList_key_mem _ w).mp (List.mem_map.mpr ⟨(w, c), h1, rfl⟩)
  rcases List.mem_flatten.mp h2 with ⟨l, hl, hw⟩
  rcases List.mem_map.mp hl with ⟨r, hr, rfl⟩
  cases r with
  | obj m =>
      rw [recordTokens] at hw
      by_cases ht : (get_review_text m == "") = true
      · simp [ht] at hw
      · simp only [ht, Bool.false_eq_true, if_false] at hw
        rcases List.mem_filter.mp hw with ⟨hfind, hstop⟩
        have hprops := mem_findallAZ3 w _ hfind
        refine ⟨hprops.1, hprops.2.1, ?_, ⟨m, hr, hprops.2.2⟩⟩
        simp only [Bool.not_eq_eq_eq_not, Bool.not_true] at hstop
        simp at hstop
        exact hstop
  | null => simp [recordTokens] at hw
  | bool b => simp [recordTokens] at hw
  | num n => simp [recordTokens] at hw
  | fnum n => simp [recordTokens] at hw
  | str s => simp [recordTokens] at hw
  | arr xs => simp [recordTokens] at hw

/-- C4 witness: the keyword `great` extracted from a concrete record has all
the properties the amended claim states. -/
theorem claim_C4_witness :
    3 ≤ "great".length ∧ "great".toList.all isLowerAlpha = true ∧
      "great" ∉ STOPWORDS ∧
      ∃ m, PyVal.obj m ∈ [PyVal.obj [("summary", PyVal.str "great glasses")]] ∧
        "great".toList <:+: (pyToLower (get_review_text m)).toList :=
  claim_C4_amended [PyVal.obj [("summary", PyVal.str "great glasses")]]
    25 "great" 1 (by decide)

/-- C4 counterexample: digits are NOT token boundaries — for the record text
`great1` the extractor returns nothing (the run `great` sits against a
digit, so `\b` places no boundary), while the spec-worded tokenizer with
digits as boundaries would return `great`. -/
theorem claim_C4_counterexample :
    extract_keywords_from_reviews [.obj [("summary", .str "great1")]] 25 = [] ∧
      specExtractKeywords [.obj [("summary", .str "great1")]] 25 = [("great", 1)] :=
  ⟨rfl, rfl⟩

/-- C5: when the keyword extractor returns nothing on the (filtered) record
set, the keyword block returns exactly the theme/concern fallback tally —
labels rendered `str(x).replace("_", " ").title()`, counts the number of
occurrences across the record set (second conjunct characterizes the tally),
restricted to the clamped top-N most frequent.  The `fallbackLabels`
hypothesis states the record set iterates its `ai_themes`/`ai_concerns`
without `TypeError`, as the data model guarantees (both are sequences). -/
theorem claim_C5 (filtered : List PyVal) (top_kw : Nat) (ls : List String)
    (hls : fallbackLabels filtered = .ok ls)
    (hempty : extract_keywords_from_reviews filtered (max 10 (min 50 top_kw)) = []) :
    tab3_keywords filtered top_kw =
        .ok (mostCommon (tallyList ls) (max 10 (min 50 top_kw))) ∧
      ∀ (k : String) (c : Nat), ((k, c) ∈ tallyList ls ↔ 0 < c ∧ c = ls.count k) := by
  constructor
  · rw [tab3_keywords]
    simp only [hempty, List.isEmpty_nil, if_true]
    rw [fallback_tally, hls]
    rfl
  · intro k c
    exact tallyList_mem_iff ls k c

/-- C5 witness: a record set with one theme label and no free text falls
back to the theme tally. -/
theorem claim_C5_witness :
    tab3_keywords [.obj [("ai_themes", .arr [.str "camera_quality"])]] 10 =
      .ok (mostCommon (tallyList ["Camera Quality"]) 10) :=
  (claim_C5 [.obj [("ai_themes", .arr [.str "camera_quality"])]] 10
    ["Camera Quality"] rfl rfl).1

theorem deriveSourceName_cases (m : List (String × PyVal)) :
    deriveSourceName m = "Amazon Reviews" ∨ deriveSourceName m = "Google News" := by
  simp only [deriveSourceName]
  split
  · exact Or.inl rfl
  · exact Or.inr rfl

theorem mem_sourceNames_cases (x : String) (responses : List PyVal)
    (h : x ∈ sourceNames responses) :
    x = "Amazon Reviews" ∨ x = "Google News" := by
  rcases List.mem_filterMap.mp h with ⟨r, hr, hx⟩
  cases r with
  | obj m =>
      simp only [Option.some.injEq] at hx
      rw [← hx]
      exact deriveSourceName_cases m
  | null => simp at hx
  | bool b => simp at hx
  | num n => simp at hx
  | fnum n => simp at hx
  | str s => simp at hx
  | arr xs => simp at hx

theorem canon_amazon_fixed :
    canonChartSource (.str "Amazon Reviews") = "Amazon Reviews" := by decide

theorem canon_google_fixed :
    canonChartSource (.str "Google News") = "Google News" := by decide

theorem mapSourceItems_named (l : List (String × Nat))
    (h : ∀ p ∈ l, canonChartSource (.str p.1) = p.1) :
    mapSourceItems (l.map (fun p => (PyVal.str p.1, PyVal.num (Int.ofNat p.2)))) =
      .ok (l.map (fun p => (p.1, PyVal.num (Int.ofNat p.2)))) := by
  induction l with
  | nil => rfl
  | cons p rest ih =>
      have hp := h p (List.mem_cons_self p rest)
      have hrest := ih (fun q hq => h q (List.mem_cons_of_mem p hq))
      simp only [List.map_cons, mapSourceItems, statsValue, exceptOkBind]
      rw [hrest, hp]
      rfl

/-- C8 (amended): with an empty (or absent) `sourceBreakdown` and non-empty
records, `build_all_charts` derives the source series from the records; each
record contributes a source key (preferring `feed_type`, falling back to
`source`, defaulting to `"Other"`), but the derivation maps a key containing
`"amazon"` to `"Amazon Reviews"` and EVERY other key to `"Google News"` —
the title-casing rule of the claim applies only to entries of a non-empty
summary `sourceBreakdown`, not to record-derived ones.  Counts tally the
records per derived name. -/
theorem claim_C8_amended (skvs : List (String × PyVal)) (responses : List PyVal)
    (hsb : getDKV skvs "sourceBreakdown" (.obj []) = .obj [])
    (hne : responses ≠ []) :
    bySourceSeries skvs responses =
        .ok ((derive_source_breakdown responses).map
          (fun p => (p.1, PyVal.num (Int.ofNat p.2)))) ∧
      ∀ p ∈ derive_source_breakdown responses,
        (p.1 = "Amazon Reviews" ∨ p.1 = "Google News") ∧
          p.2 = (sourceNames responses).count p.1 := by
  have hnames : ∀ p ∈ derive_source_breakdown responses,
      (p.1 = "Amazon Reviews" ∨ p.1 = "Google News") ∧
        p.2 = (sourceNames responses).count p.1 := by
    rintro ⟨k, c⟩ hp
    rw [derive_source_breakdown] at hp
    have hm := (tallyList_mem_iff _ k c).mp hp
    have hk : k ∈ sourceNames responses := by
      have hpos : 0 < (sourceNames responses).count k := by omega
      exact List.count_pos_iff.mp hpos
    exact ⟨mem_sourceNames_cases k responses hk, hm.2⟩
  refine ⟨?_, hnames⟩
  have hie : responses.isEmpty = false := by
    cases responses with
    | nil => exact absurd rfl hne
    | cons r rs => rfl
  rw [bySourceSeries]
  simp only [hsb, List.map_nil, List.take_nil, List.isEmpty_nil, hie,
    Bool.not_false, Bool.and_true, if_true]
  apply mapSourceItems_named
  intro p hp
  rcases (hnames p hp).1 with h | h
  · rw [h, canon_amazon_fixed]
  · rw [h, canon_google_fixed]

/-- C8 witness: the amended derivation applied to one record whose source is
`twitter`. -/
theorem claim_C8_witness :
    bySourceSeries [] [.obj [("source", .str "twitter")]] =
      .ok ((derive_source_breakdown [.obj [("source", .str "twitter")]]).map
        (fun p => (p.1, PyVal.num (Int.ofNat p.2)))) :=
  (claim_C8_amended [] [.obj [("source", .str "twitter")]] rfl (by simp)).1

/-- C8 counterexample: a record whose source is `twitter` is tallied under
`"Google News"`, not under the title-cased `"Twitter"` the claim
prescribes. -/
theorem claim_C8_counterexample :
    bySourceSeries [] [.obj [("source", .str "twitter")]] =
        .ok [("Google News", .num 1)] ∧
      "Google News" ≠ "Twitter" := ⟨rfl, by decide⟩
